import Mathlib

/-!
# The broccoli development middleware (`lib/middleware.js`)

A shallow embedding of `getMiddleware` / `broccoliMiddleware`.

* JavaScript strings are sequences of UTF-16 code units.  They are carried as
  Lean strings (every string the handler sees is well formed) and every
  primitive that looks at code units (`indexOf`, indexing, the default
  `Array.prototype.sort` order) is defined on `utf16`.
* Everything the handler imports (`url`, `path`, `fs`, `mime`, the two compiled
  handlebars templates, `decodeURIComponent`, `Date.prototype.toUTCString`,
  `String.prototype.toLowerCase`) is a field of `Env`; a call that can throw
  returns `Except JSError _`.
* The calls made on `response` and `next` are recorded, in order, as a list of
  `Event`s; these calls themselves are taken to return.  The promise chain
  `currentBuild.then(..., ...).catch(...)` is followed to the state it ends in.
* `demoEnv` is one concrete environment (POSIX paths, a small output tree under
  `/out`) on which the handler is evaluated.
-/

namespace Broccoli

/-! ## JavaScript values and strings -/

/-- JavaScript values that reach the handler as option values, stacks and payloads. -/
inductive JSValue where
  | undefined
  | null
  | bool (b : Bool)
  | number (n : Int)
  | string (s : String)
  | object (ref : Nat)
  deriving DecidableEq, Repr

/-- The test `v == null`: true of `null` and `undefined` only. -/
def JSValue.looseEqNull : JSValue → Bool
  | .undefined => true
  | .null => true
  | _ => false

/-- The truthiness of a value (`ToBoolean`), as used by `!v` and `if (v)`. -/
def JSValue.truthy : JSValue → Bool
  | .undefined => false
  | .null => false
  | .bool b => b
  | .number n => n != 0
  | .string s => s != ""
  | .object _ => true

/-- An object that is thrown or that rejects a promise, by the properties the handler reads. -/
structure JSError where
  message : String
  stack : JSValue
  broccoliPayload : JSValue
  deriving DecidableEq, Repr

/-- The UTF-16 code units of one character. -/
def utf16Char (c : Char) : List Nat :=
  if c.toNat < 0x10000 then [c.toNat]
  else [0xD800 + (c.toNat - 0x10000) / 0x400, 0xDC00 + (c.toNat - 0x10000) % 0x400]

/-- The UTF-16 code units of a list of characters. -/
def utf16List : List Char → List Nat
  | [] => []
  | c :: cs => utf16Char c ++ utf16List cs

/-- The code units of a string: what a JavaScript string is. -/
def utf16 (s : String) : List Nat := utf16List s.data

/-- Scan of `String.prototype.indexOf` over code units: the first position at or
after `i` where `needle` starts, `-1` when there is none. -/
def unitsIndexOf (needle : List Nat) : List Nat → Nat → Int
  | [], i => if needle.isPrefixOf [] then (i : Int) else -1
  | h :: t, i => if needle.isPrefixOf (h :: t) then (i : Int) else unitsIndexOf needle t (i + 1)

/-- The call `s.indexOf(sub)`. -/
def jsIndexOf (s sub : String) : Int := unitsIndexOf (utf16 sub) (utf16 s) 0

/-- The expression `s[s.length - 1]`: a string of one code unit, `undefined` (here
`none`) when `s` is empty. -/
def jsLastIndexed (s : String) : Option (List Nat) := (utf16 s).getLast?.map fun u => [u]

/-- The order `a <= b` of JavaScript strings: lexicographic on code units. -/
def unitsLE : List Nat → List Nat → Bool
  | [], _ => true
  | _ :: _, [] => false
  | a :: as, b :: bs => decide (a < b) || (decide (a = b) && unitsLE as bs)

/-- The order in which the default comparator of `sort()` leaves two strings. -/
def jsStringLE (a b : String) : Prop := unitsLE (utf16 a) (utf16 b) = true

instance : DecidableRel jsStringLE := fun a b => by unfold jsStringLE; infer_instance

/-- The call `names.sort()` on an array of strings (the sort is stable). -/
def jsSort (names : List String) : List String := names.insertionSort jsStringLE

/-- Removal of the first `.`, on characters. -/
def dropFirstDot : List Char → List Char
  | [] => []
  | c :: cs => if c = '.' then cs else c :: dropFirstDot cs

/-- The call `s.replace('.', '')`: the first `.` is removed. -/
def jsReplaceDot (s : String) : String := ⟨dropFirstDot s.data⟩

/-- The string a `null`-able string property turns into under `+` and under
`decodeURIComponent`: `null` becomes `"null"`. -/
def jsToString : Option String → String
  | some s => s
  | none => "null"

/-! ## The request, the response and the collaborators -/

/-- A header value: `setHeader` is called with strings and, for `Content-Length`, a number. -/
inductive HeaderValue where
  | str (s : String)
  | num (n : Nat)
  deriving DecidableEq, Repr

/-- A response body: a rendered template or a file buffer. -/
inductive Body where
  | text (s : String)
  | buffer (bytes : List Nat)
  deriving DecidableEq, Repr

/-- The calls the handler makes on `response` and `next`. -/
inductive Event where
  | setHeader (name : String) (value : HeaderValue)
  | writeHead (status : Nat)
  | end (body : Option Body)
  | next
  deriving DecidableEq, Repr

/-- The request, by what the handler reads: `request.url` and `request.headers`. -/
structure Request where
  url : String
  headers : List (String × String)
  deriving DecidableEq, Repr

/-- The object `url.parse` returns. -/
structure UrlObject where
  protocol : Option String
  slashes : Option Bool
  auth : Option String
  host : Option String
  port : Option String
  hostname : Option String
  hash : Option String
  search : Option String
  query : Option String
  pathname : Option String
  path : Option String
  href : String
  deriving DecidableEq, Repr

/-- An `fs.Stats` object, by what the handler reads. `mtime` is in milliseconds since the epoch. -/
structure Stats where
  isDirectory : Bool
  mtime : Int
  size : Nat
  deriving DecidableEq, Repr

/-- One entry of the `files` list of the directory template. -/
structure FileEntry where
  href : String
  type : String
  deriving DecidableEq, Repr

/-- The context of the directory template. -/
structure DirContext where
  url : String
  files : List FileEntry
  liveReloadPath : JSValue
  deriving DecidableEq, Repr

/-- The context of the error template. -/
structure ErrorContext where
  stack : JSValue
  liveReloadPath : JSValue
  payload : JSValue
  deriving DecidableEq, Repr

/-- The module `url`. -/
structure UrlModule where
  parse : String → Except JSError UrlObject
  format : UrlObject → String

/-- The module `path` of the platform. -/
structure PathModule where
  join : String → String → String
  sep : String
  extname : String → String

/-- The module `fs`, as the filesystem stands while the request is handled. -/
structure FsModule where
  statSync : String → Except JSError Stats
  existsSync : String → Bool
  readdirSync : String → Except JSError (List String)
  readFileSync : String → Except JSError (List Nat)

/-- The module `mime`; `charsetsLookup` is `mime.charsets.lookup`. -/
structure MimeModule where
  lookup : String → String
  charsetsLookup : String → Option String

/-- Everything the handler calls that is not defined in `middleware.js`. -/
structure Env where
  url : UrlModule
  path : PathModule
  fs : FsModule
  mime : MimeModule
  decodeURIComponent : String → Except JSError String
  toUTCString : Int → String
  toLowerCase : String → String
  errorTemplate : ErrorContext → Except JSError String
  dirTemplate : DirContext → Except JSError String
  errorStack : String → JSValue

/-- The options object, by the two properties the middleware reads. -/
structure Options where
  autoIndex : JSValue
  liveReloadPath : JSValue
  deriving DecidableEq, Repr

/-- How a function body ends: it returns a value or it throws. -/
inductive Completion where
  | normal (value : JSValue)
  | throw (error : JSError)
  deriving DecidableEq, Repr

/-- A run of a callback: the calls it made, then how it ended. -/
structure Run where
  events : List Event
  completion : Completion
  deriving DecidableEq, Repr

/-- The state of a promise. -/
inductive Promise where
  | pending
  | fulfilled (value : JSValue)
  | rejected (reason : JSError)
  deriving DecidableEq, Repr

/-- How a call of `broccoliMiddleware` ends: it throws, or it has built a promise
chain, given by the state the chain ends in. -/
inductive CallResult where
  | threw (error : JSError)
  | chain (state : Promise)
  deriving DecidableEq, Repr

/-- A call of `broccoliMiddleware`: the calls made on `response` and `next`, and its result. -/
structure Outcome where
  events : List Event
  result : CallResult
  deriving DecidableEq, Repr

/-- The watcher, by what the middleware reads: `watcher.currentBuild` (`none` when
it is `null` or `undefined`) and `watcher.builder.outputPath`. -/
structure Watcher where
  currentBuild : Option Promise
  outputPath : String
  deriving DecidableEq, Repr

/-! ## The handler -/

/-- The header value `'private, max-age=0, must-revalidate'`. -/
def noCache : HeaderValue := .str "private, max-age=0, must-revalidate"

/-- Lines 118-122: the MIME type of the file name, with `; charset=` and the
charset appended when `mime.charsets.lookup` gives a truthy one. -/
def contentType (env : Env) (filename : String) : String :=
  let type := env.mime.lookup filename
  match env.mime.charsetsLookup type with
  | some charset => if charset != "" then type ++ "; charset=" ++ charset else type
  | none => type

/-- Lines 109-131: the file is served, or answered with 304. -/
def serveFile (env : Env) (request : Request) (filename : String) (stat : Stats) : Run :=
  let lastModified := env.toUTCString stat.mtime
  if request.headers.lookup "if-modified-since" = some lastModified then
    ⟨[.setHeader "Last-Modified" (.str lastModified), .writeHead 304, .end none],
      .normal .undefined⟩
  else
    let type := contentType env filename
    match env.fs.readFileSync filename with
    | .error e =>
      ⟨[.setHeader "Last-Modified" (.str lastModified),
        .setHeader "Cache-Control" noCache,
        .setHeader "Content-Length" (.num stat.size),
        .setHeader "Content-Type" (.str type)], .throw e⟩
    | .ok buffer =>
      ⟨[.setHeader "Last-Modified" (.str lastModified),
        .setHeader "Cache-Control" noCache,
        .setHeader "Content-Length" (.num stat.size),
        .setHeader "Content-Type" (.str type),
        .writeHead 200, .end (some (.buffer buffer))], .normal .undefined⟩

/-- Lines 83-95: the callback of `map`, on one child of the directory. -/
def fileEntry (env : Env) (filename child : String) : Except JSError FileEntry :=
  match env.fs.statSync (env.path.join filename child) with
  | .error e => .error e
  | .ok stat =>
    let isDir := stat.isDirectory
    .ok { href := child ++ (if isDir then "/" else ""),
          type := if isDir then "dir"
                  else env.toLowerCase (jsReplaceDot (env.path.extname child)) }

/-- The call `children.map(child => ...)`: the callback runs on the children in
order and the first throw ends the loop. -/
def mapEntries (env : Env) (filename : String) : List String → Except JSError (List FileEntry)
  | [] => .ok []
  | child :: rest =>
    match fileEntry env filename child with
    | .error e => .error e
    | .ok entry =>
      match mapEntries env filename rest with
      | .error e => .error e
      | .ok entries => .ok (entry :: entries)

/-- Lines 76-101: the directory listing. -/
def serveListing (env : Env) (options : Options) (request : Request) (filename : String) : Run :=
  match env.fs.readdirSync filename with
  | .error e => ⟨[], .throw e⟩
  | .ok children =>
    match mapEntries env filename (jsSort children) with
    | .error e => ⟨[], .throw e⟩
    | .ok files =>
      match env.dirTemplate
          { url := request.url, files := files, liveReloadPath := options.liveReloadPath } with
      | .error e => ⟨[.setHeader "Cache-Control" noCache, .writeHead 200], .throw e⟩
      | .ok html =>
        ⟨[.setHeader "Cache-Control" noCache, .writeHead 200, .end (some (.text html))],
          .normal .undefined⟩

/-- Lines 57-107: the resolved path is a directory. -/
def serveDirectory (env : Env) (options : Options) (request : Request) (urlObj : UrlObject)
    (filename : String) : Run :=
  let hasIndex := env.fs.existsSync (env.path.join filename "index.html")
  if !hasIndex && !options.autoIndex.truthy then
    ⟨[.next], .normal .undefined⟩
  else if jsLastIndexed filename ≠ some (utf16 env.path.sep) then
    let urlObj := { urlObj with pathname := some (jsToString urlObj.pathname ++ "/") }
    ⟨[.setHeader "Location" (.str (env.url.format urlObj)),
      .setHeader "Cache-Control" noCache, .writeHead 301, .end none], .normal .undefined⟩
  else if !hasIndex then
    serveListing env options request filename
  else
    let filename := filename ++ "index.html"
    match env.fs.statSync filename with
    | .error e => ⟨[], .throw e⟩
    | .ok stat => serveFile env request filename stat

/-- Lines 37-132: the callback run when the build is fulfilled. -/
def onFulfilled (env : Env) (outputPath : String) (options : Options) (request : Request) : Run :=
  match env.url.parse request.url with
  | .error e => ⟨[], .throw e⟩
  | .ok urlObj =>
    match env.decodeURIComponent (jsToString urlObj.pathname) with
    | .error e => ⟨[], .throw e⟩
    | .ok decoded =>
      let filename := env.path.join outputPath decoded
      if jsIndexOf filename "\x00" ≠ -1 ∨ jsIndexOf filename outputPath ≠ 0 then
        ⟨[.writeHead 400, .end none], .normal .undefined⟩
      else
        match env.fs.statSync filename with
        | .error _ => ⟨[.next], .normal .undefined⟩
        | .ok stat =>
          if stat.isDirectory then serveDirectory env options request urlObj filename
          else serveFile env request filename stat

/-- Lines 133-144: the callback run when the build is rejected. -/
def onRejected (env : Env) (options : Options) (buildError : JSError) : Run :=
  match env.errorTemplate
      { stack := buildError.stack, liveReloadPath := options.liveReloadPath,
        payload := buildError.broccoliPayload } with
  | .error e => ⟨[.setHeader "Content-Type" (.str "text/html"), .writeHead 500], .throw e⟩
  | .ok html =>
    ⟨[.setHeader "Content-Type" (.str "text/html"), .writeHead 500, .end (some (.text html))],
      .normal .undefined⟩

/-- The promise a callback settles: fulfilled with what it returns, rejected with what it throws. -/
def settle (run : Run) : List Event × Promise :=
  match run.completion with
  | .normal v => (run.events, .fulfilled v)
  | .throw e => (run.events, .rejected e)

/-- The call `p.then(onOk, onErr)`: the calls the callback makes and the state of the new promise. -/
def promiseThen (p : Promise) (onOk : JSValue → Run) (onErr : JSError → Run) :
    List Event × Promise :=
  match p with
  | .pending => ([], .pending)
  | .fulfilled v => settle (onOk v)
  | .rejected e => settle (onErr e)

/-- The call `p.catch(onErr)`. -/
def promiseCatch (p : Promise) (onErr : JSError → Run) : List Event × Promise :=
  promiseThen p (fun v => ⟨[], .normal v⟩) onErr

/-- Lines 31-147: the function `getMiddleware` returns, on the options as `getMiddleware` left them. -/
def broccoliMiddleware (env : Env) (outputPath : String) (options : Options)
    (currentBuild : Option Promise) (request : Request) : Outcome :=
  match currentBuild with
  | none =>
    { events := [],
      result := .threw
        { message := "Waiting for initial build to start",
          stack := env.errorStack "Waiting for initial build to start",
          broccoliPayload := .undefined } }
  | some build =>
    let served := promiseThen build
      (fun _ => onFulfilled env outputPath options request)
      (fun buildError => onRejected env options buildError)
    let caught := promiseCatch served.2 (fun err => ⟨[], .normal err.stack⟩)
    { events := served.1 ++ caught.1, result := .chain caught.2 }

/-- Lines 26-27: the defaults of the options (`none` is a `null` or `undefined` argument). -/
def defaultOptions (options : Option Options) : Options :=
  let options : Options := match options with
    | none => { autoIndex := .undefined, liveReloadPath := .undefined }
    | some o => o
  if options.autoIndex.looseEqNull then { options with autoIndex := .bool true } else options

/-- Lines 25-31: `getMiddleware(watcher, options)`, applied to a request; the
output path is read once, the current build at each request. -/
def getMiddleware (env : Env) (watcher : Watcher) (options : Option Options)
    (request : Request) : Outcome :=
  broccoliMiddleware env watcher.outputPath (defaultOptions options) watcher.currentBuild request

/-! ## A concrete environment: POSIX paths over a small output tree -/

/-- Split of a path at every `/`. -/
def splitSlash : List Char → List (List Char)
  | [] => [[]]
  | c :: cs =>
    match splitSlash cs with
    | [] => [[]]
    | seg :: segs => if c = '/' then [] :: seg :: segs else (c :: seg) :: segs

/-- The segments of a normalized path, as `normalizeString` of the `path` module
keeps them: empty and `.` segments go, `..` removes the segment before it. -/
def normalizeSegments (allowAboveRoot : Bool) :
    List (List Char) → List (List Char) → List (List Char)
  | [], stack => stack.reverse
  | seg :: rest, stack =>
    if seg = [] ∨ seg = ['.'] then normalizeSegments allowAboveRoot rest stack
    else if seg = ['.', '.'] then
      match stack with
      | [] =>
        if allowAboveRoot then normalizeSegments allowAboveRoot rest [seg]
        else normalizeSegments allowAboveRoot rest []
      | top :: below =>
        if top = ['.', '.'] then normalizeSegments allowAboveRoot rest (seg :: top :: below)
        else normalizeSegments allowAboveRoot rest below
    else normalizeSegments allowAboveRoot rest (seg :: stack)

/-- Segments joined with `/`. -/
def joinSlash : List (List Char) → List Char
  | [] => []
  | [seg] => seg
  | seg :: rest => seg ++ '/' :: joinSlash rest

/-- The function `path.posix.normalize`. -/
def posixNormalize (p : List Char) : List Char :=
  if p = [] then ['.']
  else
    let isAbsolute := p.head? = some '/'
    let trailingSeparator := p.getLast? = some '/'
    let body := joinSlash (normalizeSegments (!decide isAbsolute) (splitSlash p) [])
    if body = [] then
      if isAbsolute then ['/'] else if trailingSeparator then ['.', '/'] else ['.']
    else
      (if isAbsolute then ['/'] else []) ++ body ++ (if trailingSeparator then ['/'] else [])

/-- The function `path.posix.join`, on two arguments. -/
def posixJoin (a b : String) : String :=
  if a = "" then (if b = "" then "." else ⟨posixNormalize b.data⟩)
  else if b = "" then ⟨posixNormalize a.data⟩
  else ⟨posixNormalize (a.data ++ '/' :: b.data)⟩

/-- The function `path.posix.extname`. -/
def posixExtname (p : String) : String :=
  let baseRev := (p.data.reverse.dropWhile fun c => c == '/').takeWhile fun c => c != '/'
  let extRev := baseRev.takeWhile fun c => c != '.'
  if extRev.length = baseRev.length then ""
  else if extRev.length + 1 = baseRev.length then ""
  else if baseRev = ['.', '.'] then ""
  else ⟨(extRev ++ ['.']).reverse⟩

/-- The module `path` on a POSIX platform. -/
def posixPath : PathModule := { join := posixJoin, sep := "/", extname := posixExtname }

/-- The function `url.parse` on a request target in origin form (a path, then an
optional `?query`, then an optional `#fragment`) made of characters that
`url.parse` does not escape. -/
def originParse (u : String) : Except JSError UrlObject :=
  let beforeHash := u.data.takeWhile fun c => c != '#'
  let hash := u.data.dropWhile fun c => c != '#'
  let pathname := beforeHash.takeWhile fun c => c != '?'
  let search := beforeHash.dropWhile fun c => c != '?'
  .ok { protocol := none, slashes := none, auth := none, host := none, port := none,
        hostname := none,
        hash := if hash = [] then none else some ⟨hash⟩,
        search := if search = [] then none else some ⟨search⟩,
        query := if search = [] then none else some ⟨search.drop 1⟩,
        pathname := if pathname = [] then none else some ⟨pathname⟩,
        path := if beforeHash = [] then none else some ⟨beforeHash⟩,
        href := u }

/-- The function `url.format` on an object without protocol, authority and host,
as `originParse` returns them. -/
def originFormat (u : UrlObject) : String :=
  u.pathname.getD "" ++ u.search.getD "" ++ u.hash.getD ""

/-- The value of a hexadecimal digit. -/
def hexDigit (c : Char) : Option Nat :=
  if 48 ≤ c.toNat ∧ c.toNat ≤ 57 then some (c.toNat - 48)
  else if 97 ≤ c.toNat ∧ c.toNat ≤ 102 then some (c.toNat - 87)
  else if 65 ≤ c.toNat ∧ c.toNat ≤ 70 then some (c.toNat - 55)
  else none

/-- The `URIError` that `decodeURIComponent` throws. -/
def uriError : JSError :=
  { message := "URI malformed", stack := .string "URIError: URI malformed",
    broccoliPayload := .undefined }

/-- Percent-decoding of escapes below `%80`; a malformed escape, and here any
escape from `%80` up, is a `URIError`. -/
def decodeChars : List Char → Except JSError (List Char)
  | [] => .ok []
  | c :: rest =>
    if c = '%' then
      match rest with
      | h :: l :: rest2 =>
        match hexDigit h, hexDigit l with
        | some a, some b =>
          if 16 * a + b < 128 then
            match decodeChars rest2 with
            | .ok out => .ok (Char.ofNat (16 * a + b) :: out)
            | .error e => .error e
          else .error uriError
        | _, _ => .error uriError
      | _ => .error uriError
    else
      match decodeChars rest with
      | .ok out => .ok (c :: out)
      | .error e => .error e

/-- The function `decodeURIComponent` on strings whose escapes are ASCII or malformed. -/
def asciiDecodeURIComponent (s : String) : Except JSError String :=
  match decodeChars s.data with
  | .ok out => .ok ⟨out⟩
  | .error e => .error e

/-- A node of the output tree. -/
inductive Node where
  | file (mtime : Int) (bytes : List Nat)
  | dir (mtime : Int) (children : List String)
  deriving DecidableEq, Repr

/-- The error of a path that does not resolve. -/
def enoent : JSError :=
  { message := "ENOENT: no such file or directory",
    stack := .string "Error: ENOENT: no such file or directory",
    broccoliPayload := .undefined }

/-- The error of reading a directory as a file. -/
def eisdir : JSError :=
  { message := "EISDIR: illegal operation on a directory, read",
    stack := .string "Error: EISDIR: illegal operation on a directory, read",
    broccoliPayload := .undefined }

/-- The error of listing a file as a directory. -/
def enotdir : JSError :=
  { message := "ENOTDIR: not a directory",
    stack := .string "Error: ENOTDIR: not a directory",
    broccoliPayload := .undefined }

/-- The node a path names in a tree given by absolute paths: trailing slashes
are dropped, and a path with a trailing slash names directories only. -/
def lookupNode (tree : List (String × Node)) (p : String) : Option Node :=
  let trimmed := (p.data.reverse.dropWhile fun c => c == '/').reverse
  let key : String := if trimmed = [] then "/" else ⟨trimmed⟩
  match tree.lookup key with
  | some (.file mtime bytes) =>
    if p.data.getLast? = some '/' then none else some (.file mtime bytes)
  | some (.dir mtime children) => some (.dir mtime children)
  | none => none

/-- The module `fs` over a tree. -/
def treeFs (tree : List (String × Node)) : FsModule :=
  { statSync := fun p =>
      match lookupNode tree p with
      | some (.file mtime bytes) =>
        .ok { isDirectory := false, mtime := mtime, size := bytes.length }
      | some (.dir mtime _) => .ok { isDirectory := true, mtime := mtime, size := 4096 }
      | none => .error enoent
    existsSync := fun p => (lookupNode tree p).isSome
    readdirSync := fun p =>
      match lookupNode tree p with
      | some (.dir _ children) => .ok children
      | some (.file _ _) => .error enotdir
      | none => .error enoent
    readFileSync := fun p =>
      match lookupNode tree p with
      | some (.file _ bytes) => .ok bytes
      | some (.dir _ _) => .error eisdir
      | none => .error enoent }

/-- The types of `mime` for the extensions of the output tree. -/
def demoMime : MimeModule :=
  { lookup := fun filename =>
      let ext : String :=
        ⟨(filename.data.reverse.takeWhile fun c => c != '.' && c != '/').reverse⟩
      if ext = "js" then "application/javascript"
      else if ext = "html" then "text/html"
      else if ext = "txt" then "text/plain"
      else "application/octet-stream"
    charsetsLookup := fun type =>
      if type = "application/javascript" ∨ type = "application/json" ∨
          "text/".data.isPrefixOf type.data then some "UTF-8"
      else none }

/-- Two decimal digits. -/
def pad2 (n : Nat) : List Char := [Char.ofNat (48 + n / 10 % 10), Char.ofNat (48 + n % 10)]

/-- A year as `toUTCString` prints it: four digits at least. -/
def padYear (n : Nat) : List Char :=
  (if 100000 ≤ n then [Char.ofNat (48 + n / 100000 % 10)] else []) ++
  (if 10000 ≤ n then [Char.ofNat (48 + n / 10000 % 10)] else []) ++
  pad2 (n / 100) ++ pad2 n

/-- The method `Date.prototype.toUTCString` on a time value in milliseconds. -/
def utcString (ms : Int) : String :=
  if ms < -8640000000000000 ∨ 8640000000000000 < ms then "Invalid Date"
  else
    let days := ms / 86400000
    let secs := (ms % 86400000).toNat / 1000
    let z := days + 719468
    let era := z / 146097
    let doe := (z - era * 146097).toNat
    let yoe := (doe - doe / 1460 + doe / 36524 - doe / 146096) / 365
    let doy := doe - (365 * yoe + yoe / 4 - yoe / 100)
    let mp := (5 * doy + 2) / 153
    let day := doy - (153 * mp + 2) / 5 + 1
    let month := if mp < 10 then mp + 3 else mp - 9
    let year : Int := (yoe : Int) + era * 400 + (if month ≤ 2 then 1 else 0)
    let weekday := ["Thu", "Fri", "Sat", "Sun", "Mon", "Tue", "Wed"].getD (days % 7).toNat ""
    let monthName := ["Jan", "Feb", "Mar", "Apr", "May", "Jun", "Jul", "Aug", "Sep", "Oct",
      "Nov", "Dec"].getD (month - 1) ""
    weekday ++ ", " ++ ⟨pad2 day⟩ ++ " " ++ monthName ++ " " ++
      (if year < 0 then "-" else "") ++ ⟨padYear year.natAbs⟩ ++ " " ++
      ⟨pad2 (secs / 3600)⟩ ++ ":" ++ ⟨pad2 (secs / 60 % 60)⟩ ++ ":" ++ ⟨pad2 (secs % 60)⟩ ++ " GMT"

/-- Lower case of the ASCII letters; `toLowerCase` on ASCII strings. -/
def asciiLowerCase (s : String) : String := ⟨s.data.map Char.toLower⟩

/-- A directory template: the URL, then one `href (type)` line per entry. -/
def demoDirTemplate (context : DirContext) : Except JSError String :=
  .ok (context.files.foldl (fun acc f => acc ++ "\n" ++ f.href ++ " (" ++ f.type ++ ")")
    ("Index of " ++ context.url))

/-- An error template: the stack when it is a string. -/
def demoErrorTemplate (context : ErrorContext) : Except JSError String :=
  match context.stack with
  | .string s => .ok ("Build error\n" ++ s)
  | _ => .ok "Build error"

/-- The output tree: a script, a directory without `index.html` and one with it. -/
def demoTree : List (String × Node) :=
  [("/out", .dir 1700000000000 ["site", "docs", "app.js"]),
   ("/out/app.js", .file 1700000000000 [97, 108, 101, 114, 116, 40, 49, 41]),
   ("/out/docs", .dir 1700000000000 ["b.txt", "a"]),
   ("/out/docs/a", .dir 1700000000000 []),
   ("/out/docs/b.txt", .file 1700000000000 [98]),
   ("/out/site", .dir 1700000000000 ["index.html"]),
   ("/out/site/index.html", .file 1700000060000 [60, 112, 62, 104, 105, 60, 47, 112, 62])]

/-- The concrete environment. -/
def demoEnv : Env :=
  { url := { parse := originParse, format := originFormat }
    path := posixPath
    fs := treeFs demoTree
    mime := demoMime
    decodeURIComponent := asciiDecodeURIComponent
    toUTCString := utcString
    toLowerCase := asciiLowerCase
    errorTemplate := demoErrorTemplate
    dirTemplate := demoDirTemplate
    errorStack := fun message => .string ("Error: " ++ message) }

/-- The watcher after a build into `/out` that succeeded. -/
def demoWatcher : Watcher := { currentBuild := some (.fulfilled .undefined), outputPath := "/out" }

/-- A request without headers. -/
def get (url : String) : Request := { url := url, headers := [] }

/-- The request names `filename` under the output path: the current build is
fulfilled, `url.parse` returns `urlObj`, its path decodes, `filename` is the
output path joined with the decoded path, and `filename` passes the two tests
of line 43 (no null character, begins with the output path). -/
def ResolvesTo (env : Env) (watcher : Watcher) (request : Request) (urlObj : UrlObject)
    (filename : String) : Prop :=
  (∃ value, watcher.currentBuild = some (.fulfilled value)) ∧
  env.url.parse request.url = .ok urlObj ∧
  (∃ decoded, env.decodeURIComponent (jsToString urlObj.pathname) = .ok decoded ∧
    filename = env.path.join watcher.outputPath decoded) ∧
  Char.ofNat 0 ∉ filename.data ∧
  watcher.outputPath.data <+: filename.data

/-! ## JavaScript strings: code units against characters -/

theorem utf16List_append (a b : List Char) : utf16List (a ++ b) = utf16List a ++ utf16List b := by
  induction a with
  | nil => rfl
  | cons c cs ih => simp [utf16List, ih]

theorem utf16_append (a b : String) : utf16 (a ++ b) = utf16 a ++ utf16 b := by
  simp [utf16, utf16List_append]

theorem utf16Char_ne_nil (c : Char) : utf16Char c ≠ [] := by
  unfold utf16Char
  split <;> simp

/-- A character is a Unicode scalar value: below the surrogates, or above them. -/
theorem char_scalar (c : Char) : c.toNat < 0xD800 ∨ (0xDFFF < c.toNat ∧ c.toNat < 0x110000) := by
  have h := c.valid
  simp only [UInt32.isValidChar, Nat.isValidChar] at h
  exact h

theorem char_eq_of_toNat_eq {c d : Char} (h : c.toNat = d.toNat) : c = d := by
  apply Char.ext
  apply UInt32.ext
  exact h

/-- No code unit sequence of a character starts another one: UTF-16 is a prefix code. -/
theorem utf16Char_append_inj {c d : Char} {x y : List Nat}
    (h : utf16Char c ++ x <+: utf16Char d ++ y) : c = d := by
  have hc := char_scalar c
  have hd := char_scalar d
  unfold utf16Char at h
  by_cases h1 : c.toNat < 0x10000 <;> by_cases h2 : d.toNat < 0x10000
  · simp only [h1, h2, if_true, List.singleton_append, List.cons_prefix_cons] at h
    exact char_eq_of_toNat_eq h.1
  · simp only [h1, h2, if_true, if_false, List.singleton_append, List.cons_append,
      List.cons_prefix_cons] at h
    omega
  · simp only [h1, h2, if_true, if_false, List.singleton_append, List.cons_append,
      List.cons_prefix_cons] at h
    omega
  · simp only [h1, h2, if_false, List.cons_append, List.nil_append,
      List.cons_prefix_cons] at h
    apply char_eq_of_toNat_eq
    omega

theorem utf16List_prefix_iff (a b : List Char) : utf16List a <+: utf16List b ↔ a <+: b := by
  induction a generalizing b with
  | nil => simp [utf16List]
  | cons c cs ih =>
    cases b with
    | nil =>
      simp only [utf16List, List.prefix_nil, List.append_eq_nil, utf16Char_ne_nil, false_and]
      simp
    | cons d ds =>
      constructor
      · intro h
        have hcd : c = d := utf16Char_append_inj h
        subst hcd
        simp only [utf16List] at h
        rw [List.prefix_append_right_inj] at h
        rw [List.cons_prefix_cons]
        exact ⟨rfl, (ih ds).1 h⟩
      · intro h
        rw [List.cons_prefix_cons] at h
        obtain ⟨rfl, h⟩ := h
        simp only [utf16List]
        rw [List.prefix_append_right_inj]
        exact (ih ds).2 h

theorem zero_mem_utf16Char (c : Char) : 0 ∈ utf16Char c ↔ c = Char.ofNat 0 := by
  unfold utf16Char
  constructor
  · intro h
    split at h
    · simp only [List.mem_singleton] at h
      apply char_eq_of_toNat_eq
      rw [← h]
      rfl
    · simp only [List.mem_cons, List.mem_singleton, List.not_mem_nil, or_false] at h
      omega
  · rintro rfl
    decide

theorem zero_mem_utf16List (a : List Char) : 0 ∈ utf16List a ↔ Char.ofNat 0 ∈ a := by
  induction a with
  | nil => simp [utf16List]
  | cons c cs ih =>
    simp only [utf16List, List.mem_append, List.mem_cons, zero_mem_utf16Char, ih]
    constructor
    · rintro (h | h)
      · exact Or.inl h.symm
      · exact Or.inr h
    · rintro (h | h)
      · exact Or.inl h.symm
      · exact Or.inr h

/-! ## `indexOf` -/

theorem unitsIndexOf_ge (needle hay : List Nat) (i : Nat) :
    unitsIndexOf needle hay i = -1 ∨ (i : Int) ≤ unitsIndexOf needle hay i := by
  induction hay generalizing i with
  | nil => unfold unitsIndexOf; split <;> simp
  | cons h t ih =>
    unfold unitsIndexOf
    split
    · simp
    · rcases ih (i + 1) with h1 | h1
      · exact Or.inl h1
      · right; push_cast at h1; omega

theorem unitsIndexOf_eq_start (needle hay : List Nat) (i : Nat) :
    unitsIndexOf needle hay i = i ↔ needle <+: hay := by
  cases hay with
  | nil =>
    unfold unitsIndexOf
    split
    · rename_i h; simp [List.isPrefixOf_iff_prefix] at h; simp [h]
    · rename_i h
      have h2 : ¬ needle <+: [] := by simpa [List.isPrefixOf_iff_prefix] using h
      simp only [h2, iff_false]
      omega
  | cons h t =>
    unfold unitsIndexOf
    split
    · rename_i hp; simp [List.isPrefixOf_iff_prefix] at hp; simp [hp]
    · rename_i hp
      have h2 : ¬ needle <+: h :: t := by simpa [List.isPrefixOf_iff_prefix] using hp
      simp only [h2, iff_false]
      rcases unitsIndexOf_ge needle t (i + 1) with h1 | h1
      · rw [h1]; omega
      · push_cast at h1; omega

theorem unitsIndexOf_singleton (u : Nat) (hay : List Nat) (i : Nat) :
    unitsIndexOf [u] hay i ≠ -1 ↔ u ∈ hay := by
  induction hay generalizing i with
  | nil => simp [unitsIndexOf, List.isPrefixOf]
  | cons h t ih =>
    unfold unitsIndexOf
    by_cases hu : u = h
    · subst hu
      simp [List.isPrefixOf]
    · have : ([u].isPrefixOf (h :: t)) = false := by simp [List.isPrefixOf, hu]
      simp only [this, Bool.false_eq_true, if_false, ih, List.mem_cons, hu, false_or]

/-- The test `filename.indexOf(outputPath) !== 0` fails exactly when the file name,
as a string of characters, begins with the output path. -/
theorem jsIndexOf_eq_zero_iff (s sub : String) : jsIndexOf s sub = 0 ↔ sub.data <+: s.data := by
  unfold jsIndexOf
  have h := unitsIndexOf_eq_start (utf16 sub) (utf16 s) 0
  simp only [Nat.cast_zero] at h
  rw [h]
  exact utf16List_prefix_iff _ _

/-- The test `filename.indexOf('\0') !== -1` holds exactly when the file name has a null character. -/
theorem jsIndexOf_null_iff (s : String) : jsIndexOf s "\x00" ≠ -1 ↔ Char.ofNat 0 ∈ s.data := by
  unfold jsIndexOf
  have h0 : utf16 "\x00" = [0] := by decide
  rw [h0, unitsIndexOf_singleton]
  exact zero_mem_utf16List _

/-! ## The promise chain -/

theorem broccoliMiddleware_normal (env : Env) (outputPath : String) (options : Options)
    (request : Request) (value v : JSValue) (events : List Event)
    (h : onFulfilled env outputPath options request = ⟨events, .normal v⟩) :
    broccoliMiddleware env outputPath options (some (.fulfilled value)) request =
      { events := events, result := .chain (.fulfilled v) } := by
  simp [broccoliMiddleware, promiseThen, promiseCatch, settle, h]

theorem broccoliMiddleware_throw (env : Env) (outputPath : String) (options : Options)
    (request : Request) (value : JSValue) (e : JSError) (events : List Event)
    (h : onFulfilled env outputPath options request = ⟨events, .throw e⟩) :
    broccoliMiddleware env outputPath options (some (.fulfilled value)) request =
      { events := events, result := .chain (.fulfilled e.stack) } := by
  simp [broccoliMiddleware, promiseThen, promiseCatch, settle, h]

/-- Past line 47 the callback depends on the stat of the file name only. -/
theorem onFulfilled_of_resolves (env : Env) (watcher : Watcher) (options : Options)
    (request : Request) (urlObj : UrlObject) (filename : String)
    (h : ResolvesTo env watcher request urlObj filename) :
    onFulfilled env watcher.outputPath options request =
      match env.fs.statSync filename with
      | .error _ => ⟨[.next], .normal .undefined⟩
      | .ok stat =>
        if stat.isDirectory then serveDirectory env options request urlObj filename
        else serveFile env request filename stat := by
  obtain ⟨_, hparse, ⟨decoded, hdecode, hname⟩, hnull, hroot⟩ := h
  subst hname
  have h1 : ¬ jsIndexOf (env.path.join watcher.outputPath decoded) "\x00" ≠ -1 := by
    rw [jsIndexOf_null_iff]; exact hnull
  have h2 : jsIndexOf (env.path.join watcher.outputPath decoded) watcher.outputPath = 0 :=
    (jsIndexOf_eq_zero_iff _ _).2 hroot
  unfold onFulfilled
  simp only [hparse, hdecode]
  rw [if_neg]
  rintro (h | h)
  · exact h1 h
  · exact h h2

/-! ## The claims -/

/-- C1: when the current build is fulfilled and the candidate path (the output
path joined with the percent-decoded URL path) has a null character or does not
begin with the output path, the handler calls `writeHead(400)` and `end()` and
nothing else, for every URL, output path and options (so for every `autoIndex`). -/
theorem C1_unsafe_path_is_400 (env : Env) (watcher : Watcher) (options : Option Options)
    (request : Request) (value : JSValue) (urlObj : UrlObject) (decoded : String)
    (hbuild : watcher.currentBuild = some (.fulfilled value))
    (hparse : env.url.parse request.url = .ok urlObj)
    (hdecode : env.decodeURIComponent (jsToString urlObj.pathname) = .ok decoded)
    (hbad : Char.ofNat 0 ∈ (env.path.join watcher.outputPath decoded).data ∨
      ¬ watcher.outputPath.data <+: (env.path.join watcher.outputPath decoded).data) :
    getMiddleware env watcher options request =
      { events := [.writeHead 400, .end none], result := .chain (.fulfilled .undefined) } := by
  unfold getMiddleware
  rw [hbuild]
  apply broccoliMiddleware_normal
  unfold onFulfilled
  simp only [hparse, hdecode]
  rw [if_pos]
  rcases hbad with h | h
  · exact Or.inl ((jsIndexOf_null_iff _).2 h)
  · exact Or.inr (fun h0 => h ((jsIndexOf_eq_zero_iff _ _).1 h0))

/-- C1 on `/out`: a path that climbs out of the root and a path with an encoded null. -/
theorem C1_unsafe_path_is_400_witness :
    (¬ "/out".data <+: (posixJoin "/out" "/../etc/passwd").data) ∧
    getMiddleware demoEnv demoWatcher (some ⟨.bool false, .undefined⟩) (get "/../etc/passwd") =
      { events := [.writeHead 400, .end none], result := .chain (.fulfilled .undefined) } :=
  ⟨by decide,
   C1_unsafe_path_is_400 demoEnv demoWatcher (some ⟨.bool false, .undefined⟩)
     (get "/../etc/passwd") .undefined _ "/../etc/passwd" rfl rfl rfl (Or.inr (by decide))⟩

/-- C8: when the candidate path passes the two tests of line 43 and `statSync`
throws on it, whatever the error, the handler calls `next()` once and makes no
call on the response. -/
theorem C8_stat_failure_calls_next (env : Env) (watcher : Watcher) (options : Option Options)
    (request : Request) (urlObj : UrlObject) (filename : String) (e : JSError)
    (hres : ResolvesTo env watcher request urlObj filename)
    (hstat : env.fs.statSync filename = .error e) :
    getMiddleware env watcher options request =
      { events := [.next], result := .chain (.fulfilled .undefined) } := by
  obtain ⟨value, hbuild⟩ := hres.1
  unfold getMiddleware
  rw [hbuild]
  apply broccoliMiddleware_normal
  rw [onFulfilled_of_resolves env watcher _ request urlObj filename hres, hstat]

/-- C8 on `/out`: nothing is at `/out/nope`. -/
theorem C8_stat_failure_calls_next_witness :
    demoEnv.fs.statSync "/out/nope" = .error enoent ∧
    getMiddleware demoEnv demoWatcher none (get "/nope") =
      { events := [.next], result := .chain (.fulfilled .undefined) } :=
  ⟨rfl,
   C8_stat_failure_calls_next demoEnv demoWatcher none (get "/nope") _ "/out/nope" enoent
     ⟨⟨.undefined, rfl⟩, rfl, ⟨"/nope", rfl, by decide⟩, by decide, by decide⟩ rfl⟩

/-- C2: when the current build is rejected with `f`, whatever the request, the
filesystem and the options, the handler never calls `next` and never writes the
status 200, 301, 304 or 400; and with the error template rendering
`{stack: f.stack, liveReloadPath: options.liveReloadPath, payload: f.broccoliPayload}`
to `html`, the run is exactly `Content-Type: text/html`, `writeHead(500)`, `end(html)`. -/
theorem C2_rejected_build_is_500 (env : Env) (watcher : Watcher) (options : Option Options)
    (request : Request) (f : JSError)
    (hbuild : watcher.currentBuild = some (.rejected f)) :
    (∀ html : String,
      env.errorTemplate
        { stack := f.stack, liveReloadPath := (defaultOptions options).liveReloadPath,
          payload := f.broccoliPayload } = .ok html →
      getMiddleware env watcher options request =
        { events := [.setHeader "Content-Type" (.str "text/html"), .writeHead 500,
            .end (some (.text html))],
          result := .chain (.fulfilled .undefined) }) ∧
    Event.next ∉ (getMiddleware env watcher options request).events ∧
    (∀ status ∈ [200, 301, 304, 400],
      Event.writeHead status ∉ (getMiddleware env watcher options request).events) ∧
    (∀ o : Options, options = some o → (defaultOptions options).liveReloadPath = o.liveReloadPath) := by
  refine ⟨?_, ?_, ?_, ?_⟩
  · intro html h
    simp [getMiddleware, hbuild, broccoliMiddleware, promiseThen, promiseCatch, settle,
      onRejected, h]
  · simp only [getMiddleware, hbuild, broccoliMiddleware, promiseThen, promiseCatch, settle,
      onRejected]
    cases env.errorTemplate
        { stack := f.stack, liveReloadPath := (defaultOptions options).liveReloadPath,
          payload := f.broccoliPayload } <;> simp
  · intro status hs
    simp only [getMiddleware, hbuild, broccoliMiddleware, promiseThen, promiseCatch, settle,
      onRejected]
    simp only [List.mem_cons, List.mem_singleton, List.not_mem_nil, or_false] at hs
    cases env.errorTemplate
        { stack := f.stack, liveReloadPath := (defaultOptions options).liveReloadPath,
          payload := f.broccoliPayload } <;> rcases hs with h | h | h | h <;> simp [h]
  · rintro o rfl
    simp only [defaultOptions]
    split <;> rfl

/-- C2 on `/out`: the build failed and `/app.js`, which is on disk, is requested. -/
theorem C2_rejected_build_is_500_witness :
    getMiddleware demoEnv { demoWatcher with currentBuild := some (.rejected eisdir) }
        (some ⟨.bool true, .string "/livereload.js"⟩) (get "/app.js") =
      { events := [.setHeader "Content-Type" (.str "text/html"), .writeHead 500,
          .end (some (.text "Build error\nError: EISDIR: illegal operation on a directory, read"))],
        result := .chain (.fulfilled .undefined) } :=
  (C2_rejected_build_is_500 demoEnv { demoWatcher with currentBuild := some (.rejected eisdir) }
    (some ⟨.bool true, .string "/livereload.js"⟩) (get "/app.js") eisdir rfl).1 _ rfl

/-- The calls of a request on a fulfilled build are the calls of the callback. -/
theorem broccoliMiddleware_events (env : Env) (outputPath : String) (options : Options)
    (request : Request) (value : JSValue) :
    (broccoliMiddleware env outputPath options (some (.fulfilled value)) request).events =
      (onFulfilled env outputPath options request).events := by
  cases h : onFulfilled env outputPath options request with
  | mk events completion =>
    cases completion with
    | normal v => rw [broccoliMiddleware_normal env outputPath options request value v events h]
    | throw e => rw [broccoliMiddleware_throw env outputPath options request value e events h]

/-- The directory listing never calls `next`. -/
theorem serveListing_no_next (env : Env) (options : Options) (request : Request)
    (filename : String) :
    Event.next ∉ (serveListing env options request filename).events := by
  cases hreaddir : env.fs.readdirSync filename with
  | error e => simp [serveListing, hreaddir]
  | ok children =>
    cases hmap : mapEntries env filename (jsSort children) with
    | error e => simp [serveListing, hreaddir, hmap]
    | ok files =>
      cases hrender : env.dirTemplate
          { url := request.url, files := files, liveReloadPath := options.liveReloadPath } with
      | error e => simp [serveListing, hreaddir, hmap, hrender]
      | ok html => simp [serveListing, hreaddir, hmap, hrender]

/-- A directory without `index.html`, under options whose `autoIndex` is truthy,
is redirected or listed: `next` is not called. -/
theorem serveDirectory_enabled_no_next (env : Env) (options : Options) (request : Request)
    (urlObj : UrlObject) (filename : String)
    (hindex : env.fs.existsSync (env.path.join filename "index.html") = false)
    (hauto : options.autoIndex.truthy = true) :
    Event.next ∉ (serveDirectory env options request urlObj filename).events := by
  by_cases hsep : jsLastIndexed filename ≠ some (utf16 env.path.sep)
  · simp [serveDirectory, hindex, hauto, hsep]
  · have h : serveDirectory env options request urlObj filename =
        serveListing env options request filename := by
      simp [serveDirectory, hindex, hauto, hsep]
    rw [h]
    exact serveListing_no_next env options request filename

/-- C9: a directory without `index.html`, with `autoIndex` false, gets `next()`
and no call on the response, with or without a trailing separator.  A missing
options argument becomes `{autoIndex: true}` and a `null` or `undefined`
`autoIndex` becomes `true` (any other value is kept): the middleware is then the
handler run on options with `autoIndex: true`, and on that same directory it
does not call `next` (it redirects or lists). -/
theorem C9_autoIndex_off_calls_next (env : Env) (watcher : Watcher) (o : Options)
    (request : Request) (urlObj : UrlObject) (filename : String) (stat : Stats)
    (hres : ResolvesTo env watcher request urlObj filename)
    (hstat : env.fs.statSync filename = .ok stat) (hdir : stat.isDirectory = true)
    (hindex : env.fs.existsSync (env.path.join filename "index.html") = false)
    (hauto : o.autoIndex = .bool false) :
    getMiddleware env watcher (some o) request =
      { events := [.next], result := .chain (.fulfilled .undefined) } ∧
    defaultOptions none = { autoIndex := .bool true, liveReloadPath := .undefined } ∧
    (∀ o2 : Options, o2.autoIndex = .null ∨ o2.autoIndex = .undefined →
      defaultOptions (some o2) = { autoIndex := .bool true, liveReloadPath := o2.liveReloadPath }) ∧
    (∀ o2 : Options, o2.autoIndex ≠ .null → o2.autoIndex ≠ .undefined →
      defaultOptions (some o2) = o2) ∧
    (∀ (w : Watcher) (r : Request),
      getMiddleware env w none r =
        broccoliMiddleware env w.outputPath
          { autoIndex := .bool true, liveReloadPath := .undefined } w.currentBuild r) ∧
    (∀ (w : Watcher) (r : Request) (o2 : Options),
      o2.autoIndex = .null ∨ o2.autoIndex = .undefined →
      getMiddleware env w (some o2) r =
        broccoliMiddleware env w.outputPath
          { autoIndex := .bool true, liveReloadPath := o2.liveReloadPath } w.currentBuild r) ∧
    Event.next ∉ (getMiddleware env watcher none request).events ∧
    (∀ o2 : Options, o2.autoIndex = .null ∨ o2.autoIndex = .undefined →
      Event.next ∉ (getMiddleware env watcher (some o2) request).events) ∧
    (∀ (w : Watcher) (r : Request),
      getMiddleware env w none r =
        getMiddleware env w (some { autoIndex := .bool true, liveReloadPath := .undefined }) r) ∧
    (∀ (w : Watcher) (r : Request) (o2 : Options),
      o2.autoIndex = .null ∨ o2.autoIndex = .undefined →
      getMiddleware env w (some o2) r =
        getMiddleware env w (some { o2 with autoIndex := .bool true }) r) := by
  obtain ⟨value, hbuild⟩ := hres.1
  have hnone : defaultOptions none = { autoIndex := .bool true, liveReloadPath := .undefined } :=
    rfl
  have hnullish : ∀ o2 : Options, o2.autoIndex = .null ∨ o2.autoIndex = .undefined →
      defaultOptions (some o2) =
        { autoIndex := .bool true, liveReloadPath := o2.liveReloadPath } := by
    intro o2 h
    rcases h with h | h <;> simp [defaultOptions, JSValue.looseEqNull, h]
  have hon : ∀ opts : Options, opts.autoIndex.truthy = true →
      Event.next ∉ (broccoliMiddleware env watcher.outputPath opts watcher.currentBuild
        request).events := by
    intro opts ht
    rw [hbuild, broccoliMiddleware_events,
      onFulfilled_of_resolves env watcher opts request urlObj filename hres, hstat]
    simp only [hdir, if_true]
    exact serveDirectory_enabled_no_next env opts request urlObj filename hindex ht
  refine ⟨?_, hnone, hnullish, ?_, ?_, ?_, ?_, ?_, ?_, ?_⟩
  · unfold getMiddleware
    rw [hbuild]
    apply broccoliMiddleware_normal
    rw [onFulfilled_of_resolves env watcher _ request urlObj filename hres, hstat]
    simp [hdir, serveDirectory, hindex, defaultOptions, hauto, JSValue.looseEqNull,
      JSValue.truthy]
  · intro o2 h1 h2
    cases o2 with
    | mk autoIndex liveReloadPath =>
      cases autoIndex <;> simp_all [defaultOptions, JSValue.looseEqNull]
  · intro w r
    simp only [getMiddleware, hnone]
  · intro w r o2 h
    simp only [getMiddleware, hnullish o2 h]
  · simp only [getMiddleware, hnone]
    exact hon _ rfl
  · intro o2 h
    simp only [getMiddleware, hnullish o2 h]
    exact hon _ rfl
  · intro w r
    simp [getMiddleware, defaultOptions, JSValue.looseEqNull]
  · intro w r o2 h
    rcases h with h | h <;> simp [getMiddleware, defaultOptions, JSValue.looseEqNull, h]

/-- C9 on `/out`: `/docs` has no `index.html`; asked for with the trailing slash
it gets `next()` under `autoIndex: false`, and the listing, without `next()`,
when no options are given. -/
theorem C9_autoIndex_off_calls_next_witness :
    demoEnv.fs.existsSync (demoEnv.path.join "/out/docs/" "index.html") = false ∧
    getMiddleware demoEnv demoWatcher (some ⟨.bool false, .undefined⟩) (get "/docs/") =
      { events := [.next], result := .chain (.fulfilled .undefined) } ∧
    Event.next ∉ (getMiddleware demoEnv demoWatcher none (get "/docs/")).events ∧
    (getMiddleware demoEnv demoWatcher none (get "/docs/")).events =
      [.setHeader "Cache-Control" (.str "private, max-age=0, must-revalidate"),
        .writeHead 200, .end (some (.text "Index of /docs/\na/ (dir)\nb.txt (txt)"))] :=
  ⟨rfl,
   (C9_autoIndex_off_calls_next demoEnv demoWatcher ⟨.bool false, .undefined⟩ (get "/docs/") _
     "/out/docs/" ⟨true, 1700000000000, 4096⟩
     ⟨⟨.undefined, rfl⟩, rfl, ⟨"/docs/", rfl, by decide⟩, by decide, by decide⟩
     rfl rfl rfl rfl).1,
   (C9_autoIndex_off_calls_next demoEnv demoWatcher ⟨.bool false, .undefined⟩ (get "/docs/") _
     "/out/docs/" ⟨true, 1700000000000, 4096⟩
     ⟨⟨.undefined, rfl⟩, rfl, ⟨"/docs/", rfl, by decide⟩, by decide, by decide⟩
     rfl rfl rfl rfl).2.2.2.2.2.2.1,
   by decide⟩

/-- C6: a directory without `index.html`, with `autoIndex` enabled and a
resolved path that does not end in the path separator, gets
`Location`, `Cache-Control`, `writeHead(301)` and `end()`; the location is the
parsed URL, formatted, with `/` appended to its path and every other part as parsed. -/
theorem C6_directory_redirect (env : Env) (watcher : Watcher) (options : Option Options)
    (request : Request) (urlObj : UrlObject) (filename pathname : String) (stat : Stats)
    (hres : ResolvesTo env watcher request urlObj filename)
    (hstat : env.fs.statSync filename = .ok stat) (hdir : stat.isDirectory = true)
    (hindex : env.fs.existsSync (env.path.join filename "index.html") = false)
    (hauto : (defaultOptions options).autoIndex.truthy = true)
    (hsep : jsLastIndexed filename ≠ some (utf16 env.path.sep))
    (hpath : urlObj.pathname = some pathname) :
    getMiddleware env watcher options request =
      { events :=
          [.setHeader "Location"
              (.str (env.url.format { urlObj with pathname := some (pathname ++ "/") })),
            .setHeader "Cache-Control" (.str "private, max-age=0, must-revalidate"),
            .writeHead 301, .end none],
        result := .chain (.fulfilled .undefined) } := by
  obtain ⟨value, hbuild⟩ := hres.1
  unfold getMiddleware
  rw [hbuild]
  apply broccoliMiddleware_normal
  rw [onFulfilled_of_resolves env watcher _ request urlObj filename hres, hstat]
  simp [hdir, serveDirectory, hindex, hauto, hsep, hpath, jsToString, noCache]

/-- C6 on `/out`: `/docs?x=1` is redirected to `/docs/?x=1`. -/
theorem C6_directory_redirect_witness :
    getMiddleware demoEnv demoWatcher none (get "/docs?x=1") =
      { events :=
          [.setHeader "Location" (.str "/docs/?x=1"),
            .setHeader "Cache-Control" (.str "private, max-age=0, must-revalidate"),
            .writeHead 301, .end none],
        result := .chain (.fulfilled .undefined) } :=
  C6_directory_redirect demoEnv demoWatcher none (get "/docs?x=1") _ "/out/docs" "/docs"
    ⟨true, 1700000000000, 4096⟩
    ⟨⟨.undefined, rfl⟩, rfl, ⟨"/docs", rfl, by decide⟩, by decide, by decide⟩
    rfl rfl rfl rfl (by decide) rfl

/-- C5: an existing regular file under the output path, asked for with an
`If-Modified-Since` that is absent or differs from the formatted mtime, and
readable, gets `Last-Modified`, `Cache-Control`, `Content-Length` (the stat
size), `Content-Type` (the MIME type, with `; charset=` and the charset when the
type has one), `writeHead(200)` and `end(bytes)`; `next` is not called. -/
theorem C5_file_is_served (env : Env) (watcher : Watcher) (options : Option Options)
    (request : Request) (urlObj : UrlObject) (filename : String) (stat : Stats)
    (buffer : List Nat)
    (hres : ResolvesTo env watcher request urlObj filename)
    (hstat : env.fs.statSync filename = .ok stat) (hfile : stat.isDirectory = false)
    (hread : env.fs.readFileSync filename = .ok buffer)
    (hsince : request.headers.lookup "if-modified-since" ≠ some (env.toUTCString stat.mtime)) :
    getMiddleware env watcher options request =
      { events :=
          [.setHeader "Last-Modified" (.str (env.toUTCString stat.mtime)),
            .setHeader "Cache-Control" (.str "private, max-age=0, must-revalidate"),
            .setHeader "Content-Length" (.num stat.size),
            .setHeader "Content-Type" (.str (contentType env filename)),
            .writeHead 200, .end (some (.buffer buffer))],
        result := .chain (.fulfilled .undefined) } ∧
    (∀ charset : String, env.mime.charsetsLookup (env.mime.lookup filename) = some charset →
      charset ≠ "" →
      contentType env filename = env.mime.lookup filename ++ "; charset=" ++ charset) ∧
    (env.mime.charsetsLookup (env.mime.lookup filename) = none →
      contentType env filename = env.mime.lookup filename) := by
  refine ⟨?_, ?_, ?_⟩
  · obtain ⟨value, hbuild⟩ := hres.1
    unfold getMiddleware
    rw [hbuild]
    apply broccoliMiddleware_normal
    rw [onFulfilled_of_resolves env watcher _ request urlObj filename hres, hstat]
    simp [hfile, serveFile, hsince, hread, noCache]
  · intro charset h hne
    simp [contentType, h, hne]
  · intro h
    simp [contentType, h]

/-- C5 on `/out`: `GET /app.js` without `If-Modified-Since`. -/
theorem C5_file_is_served_witness :
    getMiddleware demoEnv demoWatcher none (get "/app.js") =
      { events :=
          [.setHeader "Last-Modified" (.str "Tue, 14 Nov 2023 22:13:20 GMT"),
            .setHeader "Cache-Control" (.str "private, max-age=0, must-revalidate"),
            .setHeader "Content-Length" (.num 8),
            .setHeader "Content-Type" (.str "application/javascript; charset=UTF-8"),
            .writeHead 200, .end (some (.buffer [97, 108, 101, 114, 116, 40, 49, 41]))],
        result := .chain (.fulfilled .undefined) } :=
  (C5_file_is_served demoEnv demoWatcher none (get "/app.js") _ "/out/app.js"
    ⟨false, 1700000000000, 8⟩ [97, 108, 101, 114, 116, 40, 49, 41]
    ⟨⟨.undefined, rfl⟩, rfl, ⟨"/app.js", rfl, by decide⟩, by decide, by decide⟩
    rfl rfl rfl (by decide)).1

/-- The callback, on a request that ends in file serving: a regular file, or a
directory with `index.html` asked for with the trailing separator. -/
theorem onFulfilled_serves (env : Env) (watcher : Watcher) (options : Options)
    (request : Request) (urlObj : UrlObject) (resolved filename : String) (stat0 stat : Stats)
    (hres : ResolvesTo env watcher request urlObj resolved)
    (hstat0 : env.fs.statSync resolved = .ok stat0)
    (hfile : (stat0.isDirectory = false ∧ filename = resolved ∧ stat = stat0) ∨
      (stat0.isDirectory = true ∧
        env.fs.existsSync (env.path.join resolved "index.html") = true ∧
        jsLastIndexed resolved = some (utf16 env.path.sep) ∧
        filename = resolved ++ "index.html" ∧
        env.fs.statSync filename = .ok stat)) :
    onFulfilled env watcher.outputPath options request = serveFile env request filename stat := by
  rw [onFulfilled_of_resolves env watcher _ request urlObj resolved hres, hstat0]
  rcases hfile with ⟨hd, rfl, rfl⟩ | ⟨hd, hindex, hsep, rfl, hstat⟩
  · simp [hd]
  · simp [hd, serveDirectory, hindex, hsep, hstat]

theorem serveFile_not_modified (env : Env) (request : Request) (filename : String)
    (stat : Stats)
    (h : request.headers.lookup "if-modified-since" = some (env.toUTCString stat.mtime)) :
    serveFile env request filename stat =
      ⟨[.setHeader "Last-Modified" (.str (env.toUTCString stat.mtime)), .writeHead 304,
        .end none], .normal .undefined⟩ := by
  simp [serveFile, h]

/-- The outcome of a call whose callback is `serveFile`, in its three cases. -/
theorem getMiddleware_serveFile (env : Env) (watcher : Watcher) (options : Option Options)
    (request : Request) (value : JSValue) (filename : String) (stat : Stats)
    (hbuild : watcher.currentBuild = some (.fulfilled value))
    (h : onFulfilled env watcher.outputPath (defaultOptions options) request =
      serveFile env request filename stat) :
    (request.headers.lookup "if-modified-since" = some (env.toUTCString stat.mtime) ∧
      getMiddleware env watcher options request =
        { events := [.setHeader "Last-Modified" (.str (env.toUTCString stat.mtime)),
            .writeHead 304, .end none],
          result := .chain (.fulfilled .undefined) }) ∨
    (request.headers.lookup "if-modified-since" ≠ some (env.toUTCString stat.mtime) ∧
      ∃ e, getMiddleware env watcher options request =
        { events := [.setHeader "Last-Modified" (.str (env.toUTCString stat.mtime)),
            .setHeader "Cache-Control" noCache,
            .setHeader "Content-Length" (.num stat.size),
            .setHeader "Content-Type" (.str (contentType env filename))],
          result := .chain (.fulfilled e) }) ∨
    (request.headers.lookup "if-modified-since" ≠ some (env.toUTCString stat.mtime) ∧
      ∃ buffer, getMiddleware env watcher options request =
        { events := [.setHeader "Last-Modified" (.str (env.toUTCString stat.mtime)),
            .setHeader "Cache-Control" noCache,
            .setHeader "Content-Length" (.num stat.size),
            .setHeader "Content-Type" (.str (contentType env filename)),
            .writeHead 200, .end (some (.buffer buffer))],
          result := .chain (.fulfilled .undefined) }) := by
  unfold getMiddleware
  rw [hbuild]
  by_cases hs : request.headers.lookup "if-modified-since" = some (env.toUTCString stat.mtime)
  · left
    refine ⟨hs, ?_⟩
    apply broccoliMiddleware_normal
    rw [h, serveFile_not_modified env request filename stat hs]
  · right
    cases hread : env.fs.readFileSync filename with
    | error e =>
      left
      refine ⟨hs, e.stack, ?_⟩
      apply broccoliMiddleware_throw
      rw [h]
      simp [serveFile, hs, hread]
    | ok buffer =>
      right
      refine ⟨hs, buffer, ?_⟩
      apply broccoliMiddleware_normal
      rw [h]
      simp [serveFile, hs, hread]

/-- C4: on a request that ends in file serving (a regular file, or the
`index.html` of a directory asked for with the trailing separator) the first call
is `setHeader('Last-Modified', mtime.toUTCString())`; the run is
`Last-Modified`, `writeHead(304)`, `end()` exactly when `If-Modified-Since` is
that same string, and 304 is written in no other case; so a second request for
the same URL whose `If-Modified-Since` is the `Last-Modified` of the first gets 304
with an empty body. -/
theorem C4_not_modified_iff (env : Env) (watcher : Watcher) (options : Option Options)
    (request : Request) (urlObj : UrlObject) (resolved filename : String) (stat0 stat : Stats)
    (hres : ResolvesTo env watcher request urlObj resolved)
    (hstat0 : env.fs.statSync resolved = .ok stat0)
    (hfile : (stat0.isDirectory = false ∧ filename = resolved ∧ stat = stat0) ∨
      (stat0.isDirectory = true ∧
        env.fs.existsSync (env.path.join resolved "index.html") = true ∧
        jsLastIndexed resolved = some (utf16 env.path.sep) ∧
        filename = resolved ++ "index.html" ∧
        env.fs.statSync filename = .ok stat)) :
    (getMiddleware env watcher options request).events.head? =
      some (.setHeader "Last-Modified" (.str (env.toUTCString stat.mtime))) ∧
    (request.headers.lookup "if-modified-since" = some (env.toUTCString stat.mtime) ↔
      getMiddleware env watcher options request =
        { events := [.setHeader "Last-Modified" (.str (env.toUTCString stat.mtime)),
            .writeHead 304, .end none],
          result := .chain (.fulfilled .undefined) }) ∧
    (request.headers.lookup "if-modified-since" = some (env.toUTCString stat.mtime) ↔
      Event.writeHead 304 ∈ (getMiddleware env watcher options request).events) ∧
    (∀ (second : Request) (lastModified : String), second.url = request.url →
      Event.setHeader "Last-Modified" (.str lastModified) ∈
        (getMiddleware env watcher options request).events →
      second.headers.lookup "if-modified-since" = some lastModified →
      getMiddleware env watcher options second =
        { events := [.setHeader "Last-Modified" (.str lastModified), .writeHead 304,
            .end none],
          result := .chain (.fulfilled .undefined) }) := by
  obtain ⟨value, hbuild⟩ := hres.1
  have hserve := onFulfilled_serves env watcher (defaultOptions options) request urlObj
    resolved filename stat0 stat hres hstat0 hfile
  have hcases := getMiddleware_serveFile env watcher options request value filename stat
    hbuild hserve
  refine ⟨?_, ?_, ?_, ?_⟩
  · rcases hcases with ⟨_, h⟩ | ⟨_, e, h⟩ | ⟨_, b, h⟩ <;> rw [h] <;> rfl
  · rcases hcases with ⟨hs, h⟩ | ⟨hs, e, h⟩ | ⟨hs, b, h⟩
    · exact ⟨fun _ => h, fun _ => hs⟩
    · refine ⟨fun h2 => absurd h2 hs, fun h2 => ?_⟩
      rw [h] at h2
      simp at h2
    · refine ⟨fun h2 => absurd h2 hs, fun h2 => ?_⟩
      rw [h] at h2
      simp at h2
  · rcases hcases with ⟨hs, h⟩ | ⟨hs, e, h⟩ | ⟨hs, b, h⟩
    · rw [h]; simp [hs]
    · rw [h]; simp [hs]
    · rw [h]; simp [hs]
  · intro second lastModified hurl hmem hsecond
    have hlm : lastModified = env.toUTCString stat.mtime := by
      rcases hcases with ⟨_, h⟩ | ⟨_, e, h⟩ | ⟨_, b, h⟩ <;> rw [h] at hmem <;>
        simpa [noCache] using hmem
    subst hlm
    have hres2 : ResolvesTo env watcher second urlObj resolved := by
      obtain ⟨h1, h2, h3, h4, h5⟩ := hres
      exact ⟨h1, by rw [hurl]; exact h2, h3, h4, h5⟩
    have hserve2 := onFulfilled_serves env watcher (defaultOptions options) second urlObj
      resolved filename stat0 stat hres2 hstat0 hfile
    unfold getMiddleware
    rw [hbuild]
    apply broccoliMiddleware_normal
    rw [hserve2, serveFile_not_modified env second filename stat hsecond]

/-- C4 on `/out`: `GET /site/` serves `index.html`; the same request with
`If-Modified-Since` set to its `Last-Modified` gets 304. -/
theorem C4_not_modified_iff_witness :
    Event.setHeader "Last-Modified" (.str "Tue, 14 Nov 2023 22:14:20 GMT") ∈
      (getMiddleware demoEnv demoWatcher none (get "/site/")).events ∧
    getMiddleware demoEnv demoWatcher none
        { url := "/site/", headers := [("if-modified-since", "Tue, 14 Nov 2023 22:14:20 GMT")] } =
      { events := [.setHeader "Last-Modified" (.str "Tue, 14 Nov 2023 22:14:20 GMT"),
          .writeHead 304, .end none],
        result := .chain (.fulfilled .undefined) } :=
  ⟨by decide,
   (C4_not_modified_iff demoEnv demoWatcher none (get "/site/") _ "/out/site/"
      "/out/site/index.html" ⟨true, 1700000000000, 4096⟩ ⟨false, 1700000060000, 9⟩
      ⟨⟨.undefined, rfl⟩, rfl, ⟨"/site/", rfl, by decide⟩, by decide, by decide⟩ rfl
      (Or.inr ⟨rfl, rfl, by decide, by decide, rfl⟩)).2.2.2
      { url := "/site/", headers := [("if-modified-since", "Tue, 14 Nov 2023 22:14:20 GMT")] }
      "Tue, 14 Nov 2023 22:14:20 GMT" rfl (by decide) rfl⟩

/-! ## The order of `sort()` and the listing -/

theorem unitsLE_total (a b : List Nat) : unitsLE a b = true ∨ unitsLE b a = true := by
  induction a generalizing b with
  | nil => simp [unitsLE]
  | cons x xs ih =>
    cases b with
    | nil => simp [unitsLE]
    | cons y ys =>
      simp only [unitsLE, Bool.or_eq_true, Bool.and_eq_true, decide_eq_true_eq]
      rcases Nat.lt_trichotomy x y with h | h | h
      · exact Or.inl (Or.inl h)
      · rcases ih ys with h2 | h2
        · exact Or.inl (Or.inr ⟨h, h2⟩)
        · exact Or.inr (Or.inr ⟨h.symm, h2⟩)
      · exact Or.inr (Or.inl h)

theorem unitsLE_trans (a b c : List Nat) (hab : unitsLE a b = true) (hbc : unitsLE b c = true) :
    unitsLE a c = true := by
  induction a generalizing b c with
  | nil => simp [unitsLE]
  | cons x xs ih =>
    cases b with
    | nil => simp [unitsLE] at hab
    | cons y ys =>
      cases c with
      | nil => simp [unitsLE] at hbc
      | cons z zs =>
        simp only [unitsLE, Bool.or_eq_true, Bool.and_eq_true, decide_eq_true_eq] at hab hbc ⊢
        rcases hab with h1 | ⟨h1, h1t⟩ <;> rcases hbc with h2 | ⟨h2, h2t⟩
        · exact Or.inl (by omega)
        · exact Or.inl (by omega)
        · exact Or.inl (by omega)
        · exact Or.inr ⟨by omega, ih ys zs h1t h2t⟩

theorem jsSort_sorted (names : List String) : (jsSort names).Sorted jsStringLE :=
  @List.sorted_insertionSort String jsStringLE _
    ⟨fun a b => unitsLE_total (utf16 a) (utf16 b)⟩
    ⟨fun a b c => unitsLE_trans (utf16 a) (utf16 b) (utf16 c)⟩ names

theorem jsSort_perm (names : List String) : (jsSort names).Perm names :=
  List.perm_insertionSort jsStringLE names

/-- The loop of `map` returns when every child can be stat'ed. -/
theorem mapEntries_ok (env : Env) (filename : String) (childStat : String → Stats)
    (names : List String)
    (h : ∀ child ∈ names, env.fs.statSync (env.path.join filename child) = .ok (childStat child)) :
    mapEntries env filename names =
      .ok (names.map fun child =>
        if (childStat child).isDirectory then { href := child ++ "/", type := "dir" }
        else { href := child, type := env.toLowerCase (jsReplaceDot (env.path.extname child)) }) := by
  induction names with
  | nil => rfl
  | cons child rest ih =>
    have h1 := h child (List.mem_cons_self _ _)
    have h2 := ih fun c hc => h c (List.mem_cons_of_mem _ hc)
    simp only [mapEntries, fileEntry, h1, h2, List.map_cons]
    cases (childStat child).isDirectory <;> simp

/-- C7: a directory without `index.html`, asked for with the trailing separator
and `autoIndex` enabled, whose children can be listed and stat'ed and whose
listing renders to `html`, gets `Cache-Control`, `writeHead(200)` and
`end(html)`; the `files` of the template context have one entry per child, in
ascending order of the names, `{href: name + '/', type: 'dir'}` for a directory
and `{href: name, type: extension without the dot, in lower case}` for a file. -/
theorem C7_directory_listing (env : Env) (watcher : Watcher) (options : Option Options)
    (request : Request) (urlObj : UrlObject) (filename : String) (stat : Stats)
    (children : List String) (childStat : String → Stats) (html : String)
    (hres : ResolvesTo env watcher request urlObj filename)
    (hstat : env.fs.statSync filename = .ok stat) (hdir : stat.isDirectory = true)
    (hindex : env.fs.existsSync (env.path.join filename "index.html") = false)
    (hauto : (defaultOptions options).autoIndex.truthy = true)
    (hsep : jsLastIndexed filename = some (utf16 env.path.sep))
    (hreaddir : env.fs.readdirSync filename = .ok children)
    (hchild : ∀ child ∈ children,
      env.fs.statSync (env.path.join filename child) = .ok (childStat child))
    (hrender : env.dirTemplate
      { url := request.url,
        files := (jsSort children).map fun child =>
          if (childStat child).isDirectory then { href := child ++ "/", type := "dir" }
          else { href := child,
                 type := env.toLowerCase (jsReplaceDot (env.path.extname child)) },
        liveReloadPath := (defaultOptions options).liveReloadPath } = .ok html) :
    getMiddleware env watcher options request =
      { events := [.setHeader "Cache-Control" (.str "private, max-age=0, must-revalidate"),
          .writeHead 200, .end (some (.text html))],
        result := .chain (.fulfilled .undefined) } ∧
    (jsSort children).Perm children ∧
    (jsSort children).Sorted jsStringLE := by
  refine ⟨?_, jsSort_perm children, jsSort_sorted children⟩
  obtain ⟨value, hbuild⟩ := hres.1
  have hmap := mapEntries_ok env filename childStat (jsSort children)
    fun c hc => hchild c ((jsSort_perm children).mem_iff.1 hc)
  unfold getMiddleware
  rw [hbuild]
  apply broccoliMiddleware_normal
  rw [onFulfilled_of_resolves env watcher _ request urlObj filename hres, hstat]
  simp [hdir, serveDirectory, hindex, hauto, hsep, serveListing, hreaddir, hmap, hrender, noCache]

/-- C7 on `/out`: `/docs/` has the children `b.txt` and `a/`, listed as `a/` then `b.txt`. -/
theorem C7_directory_listing_witness :
    demoEnv.fs.readdirSync "/out/docs/" = .ok ["b.txt", "a"] ∧
    demoEnv.dirTemplate
      { url := "/docs/", files := [⟨"a/", "dir"⟩, ⟨"b.txt", "txt"⟩], liveReloadPath := .undefined } =
        .ok "Index of /docs/\na/ (dir)\nb.txt (txt)" ∧
    getMiddleware demoEnv demoWatcher none (get "/docs/") =
      { events := [.setHeader "Cache-Control" (.str "private, max-age=0, must-revalidate"),
          .writeHead 200, .end (some (.text "Index of /docs/\na/ (dir)\nb.txt (txt)"))],
        result := .chain (.fulfilled .undefined) } :=
  ⟨rfl, rfl,
   (C7_directory_listing demoEnv demoWatcher none (get "/docs/") _ "/out/docs/"
      ⟨true, 1700000000000, 4096⟩ ["b.txt", "a"]
      (fun child => if child = "a" then ⟨true, 1700000000000, 4096⟩
        else ⟨false, 1700000000000, 1⟩)
      "Index of /docs/\na/ (dir)\nb.txt (txt)"
      ⟨⟨.undefined, rfl⟩, rfl, ⟨"/docs/", rfl, by decide⟩, by decide, by decide⟩
      rfl rfl rfl rfl (by decide) rfl
      (by
        intro child hc
        simp only [List.mem_cons, List.mem_singleton, List.not_mem_nil, or_false] at hc
        rcases hc with rfl | rfl <;> rfl)
      rfl).1⟩

/-- C3, as the code has it: a directory with `index.html` whose resolved path
ends in the path separator gets, for any two option settings, the very outcome
of a request with the same headers that resolves to `<dir>/index.html` (a regular
file); when the resolved path lacks the separator the directory request gets the
301 redirect to the URL with `/` appended to its path instead. -/
theorem C3_directory_index_with_separator (env : Env) (watcher : Watcher)
    (options1 options2 : Option Options) (request1 request2 : Request)
    (urlObj1 urlObj2 : UrlObject) (dir : String) (stat0 stat : Stats)
    (hres1 : ResolvesTo env watcher request1 urlObj1 dir)
    (hstat0 : env.fs.statSync dir = .ok stat0) (hdir : stat0.isDirectory = true)
    (hindex : env.fs.existsSync (env.path.join dir "index.html") = true) :
    (jsLastIndexed dir = some (utf16 env.path.sep) →
      env.fs.statSync (dir ++ "index.html") = .ok stat → stat.isDirectory = false →
      ResolvesTo env watcher request2 urlObj2 (dir ++ "index.html") →
      request2.headers = request1.headers →
      getMiddleware env watcher options1 request1 = getMiddleware env watcher options2 request2) ∧
    (jsLastIndexed dir ≠ some (utf16 env.path.sep) →
      ∀ pathname, urlObj1.pathname = some pathname →
      getMiddleware env watcher options1 request1 =
        { events :=
            [.setHeader "Location"
                (.str (env.url.format { urlObj1 with pathname := some (pathname ++ "/") })),
              .setHeader "Cache-Control" (.str "private, max-age=0, must-revalidate"),
              .writeHead 301, .end none],
          result := .chain (.fulfilled .undefined) }) := by
  obtain ⟨value, hbuild⟩ := hres1.1
  constructor
  · intro hsep hstat hfile hres2 hheaders
    have h1 := onFulfilled_serves env watcher (defaultOptions options1) request1 urlObj1 dir
      (dir ++ "index.html") stat0 stat hres1 hstat0 (Or.inr ⟨hdir, hindex, hsep, rfl, hstat⟩)
    have h2 := onFulfilled_serves env watcher (defaultOptions options2) request2 urlObj2
      (dir ++ "index.html") (dir ++ "index.html") stat stat hres2 hstat
      (Or.inl ⟨hfile, rfl, rfl⟩)
    have hserve : serveFile env request2 (dir ++ "index.html") stat =
        serveFile env request1 (dir ++ "index.html") stat := by
      simp [serveFile, hheaders]
    simp only [getMiddleware, hbuild, broccoliMiddleware, promiseThen, h1, h2, hserve]
  · intro hsep pathname hpath
    unfold getMiddleware
    rw [hbuild]
    apply broccoliMiddleware_normal
    rw [onFulfilled_of_resolves env watcher _ request1 urlObj1 dir hres1, hstat0]
    simp [hdir, serveDirectory, hindex, hsep, hpath, jsToString, noCache]

/-- C3 on `/out`: `GET /site/` and `GET /site/index.html` have the same outcome,
with `autoIndex` off for the first and on for the second. -/
theorem C3_directory_index_with_separator_witness :
    getMiddleware demoEnv demoWatcher (some ⟨.bool false, .undefined⟩) (get "/site/") =
      getMiddleware demoEnv demoWatcher none (get "/site/index.html") :=
  (C3_directory_index_with_separator demoEnv demoWatcher (some ⟨.bool false, .undefined⟩) none
    (get "/site/") (get "/site/index.html") _ _ "/out/site/"
    ⟨true, 1700000000000, 4096⟩ ⟨false, 1700000060000, 9⟩
    ⟨⟨.undefined, rfl⟩, rfl, ⟨"/site/", rfl, by decide⟩, by decide, by decide⟩
    rfl rfl rfl).1 (by decide) rfl rfl
    ⟨⟨.undefined, rfl⟩, rfl, ⟨"/site/index.html", rfl, by decide⟩, by decide, by decide⟩ rfl

/-- C3 fails as stated: `/out/site` is a directory that holds the file
`index.html`; `GET /site` is answered with a 301 to `/site/`, `GET /site/index.html`
with the file. -/
theorem C3_counterexample :
    demoEnv.fs.statSync "/out/site" = .ok ⟨true, 1700000000000, 4096⟩ ∧
    demoEnv.fs.statSync "/out/site/index.html" = .ok ⟨false, 1700000060000, 9⟩ ∧
    getMiddleware demoEnv demoWatcher none (get "/site") =
      { events :=
          [.setHeader "Location" (.str "/site/"),
            .setHeader "Cache-Control" (.str "private, max-age=0, must-revalidate"),
            .writeHead 301, .end none],
        result := .chain (.fulfilled .undefined) } ∧
    getMiddleware demoEnv demoWatcher none (get "/site/index.html") =
      { events :=
          [.setHeader "Last-Modified" (.str "Tue, 14 Nov 2023 22:14:20 GMT"),
            .setHeader "Cache-Control" (.str "private, max-age=0, must-revalidate"),
            .setHeader "Content-Length" (.num 9),
            .setHeader "Content-Type" (.str "text/html; charset=UTF-8"),
            .writeHead 200, .end (some (.buffer [60, 112, 62, 104, 105, 60, 47, 112, 62]))],
        result := .chain (.fulfilled .undefined) } ∧
    getMiddleware demoEnv demoWatcher none (get "/site") ≠
      getMiddleware demoEnv demoWatcher none (get "/site/index.html") :=
  ⟨rfl, rfl, by decide, by decide, by decide⟩

/-! ## Exceptions in the callback -/

theorem serveFile_throw (env : Env) (request : Request) (filename : String) (stat : Stats)
    (events : List Event) (e : JSError)
    (h : serveFile env request filename stat = ⟨events, .throw e⟩) :
    (∀ body, Event.end body ∉ events) ∧ Event.next ∉ events := by
  by_cases hs : request.headers.lookup "if-modified-since" = some (env.toUTCString stat.mtime)
  · simp [serveFile, hs] at h
  · cases hread : env.fs.readFileSync filename with
    | error e2 =>
      simp only [serveFile, hs, hread, if_false, Run.mk.injEq] at h
      obtain ⟨rfl, _⟩ := h
      simp
    | ok buffer => simp [serveFile, hs, hread] at h

theorem serveListing_throw (env : Env) (options : Options) (request : Request)
    (filename : String) (events : List Event) (e : JSError)
    (h : serveListing env options request filename = ⟨events, .throw e⟩) :
    (∀ body, Event.end body ∉ events) ∧ Event.next ∉ events := by
  cases hreaddir : env.fs.readdirSync filename with
  | error e2 =>
    simp only [serveListing, hreaddir, Run.mk.injEq] at h
    obtain ⟨rfl, _⟩ := h
    simp
  | ok children =>
    cases hmap : mapEntries env filename (jsSort children) with
    | error e2 =>
      simp only [serveListing, hreaddir, hmap, Run.mk.injEq] at h
      obtain ⟨rfl, _⟩ := h
      simp
    | ok files =>
      cases hrender : env.dirTemplate
          { url := request.url, files := files, liveReloadPath := options.liveReloadPath } with
      | error e2 =>
        simp only [serveListing, hreaddir, hmap, hrender, Run.mk.injEq] at h
        obtain ⟨rfl, _⟩ := h
        simp
      | ok html => simp [serveListing, hreaddir, hmap, hrender] at h

theorem serveDirectory_throw (env : Env) (options : Options) (request : Request)
    (urlObj : UrlObject) (filename : String) (events : List Event) (e : JSError)
    (h : serveDirectory env options request urlObj filename = ⟨events, .throw e⟩) :
    (∀ body, Event.end body ∉ events) ∧ Event.next ∉ events := by
  by_cases h2 : jsLastIndexed filename ≠ some (utf16 env.path.sep)
  · cases hx : env.fs.existsSync (env.path.join filename "index.html") <;>
      cases ha : options.autoIndex.truthy <;>
      simp [serveDirectory, hx, ha, h2] at h
  · cases hx : env.fs.existsSync (env.path.join filename "index.html") with
    | false =>
      cases ha : options.autoIndex.truthy with
      | false => simp [serveDirectory, hx, ha] at h
      | true =>
        have h3 : serveDirectory env options request urlObj filename =
            serveListing env options request filename := by
          simp [serveDirectory, hx, ha, h2]
        rw [h3] at h
        exact serveListing_throw env options request filename events e h
    | true =>
      cases hstat : env.fs.statSync (filename ++ "index.html") with
      | error e2 =>
        have h3 : serveDirectory env options request urlObj filename = ⟨[], .throw e2⟩ := by
          simp [serveDirectory, hx, h2, hstat]
        rw [h3] at h
        simp only [Run.mk.injEq] at h
        obtain ⟨rfl, _⟩ := h
        simp
      | ok stat =>
        have h3 : serveDirectory env options request urlObj filename =
            serveFile env request (filename ++ "index.html") stat := by
          simp [serveDirectory, hx, h2, hstat]
        rw [h3] at h
        exact serveFile_throw env request _ _ events e h

/-- A callback that throws has not ended the response and has not called `next`. -/
theorem onFulfilled_throw (env : Env) (outputPath : String) (options : Options)
    (request : Request) (events : List Event) (e : JSError)
    (h : onFulfilled env outputPath options request = ⟨events, .throw e⟩) :
    (∀ body, Event.end body ∉ events) ∧ Event.next ∉ events := by
  cases hparse : env.url.parse request.url with
  | error e2 =>
    simp only [onFulfilled, hparse, Run.mk.injEq] at h
    obtain ⟨rfl, _⟩ := h
    simp
  | ok urlObj =>
    cases hdecode : env.decodeURIComponent (jsToString urlObj.pathname) with
    | error e2 =>
      simp only [onFulfilled, hparse, hdecode, Run.mk.injEq] at h
      obtain ⟨rfl, _⟩ := h
      simp
    | ok decoded =>
      by_cases h1 : jsIndexOf (env.path.join outputPath decoded) "\x00" ≠ -1 ∨
          jsIndexOf (env.path.join outputPath decoded) outputPath ≠ 0
      · simp only [onFulfilled, hparse, hdecode, h1, if_true] at h
        simp at h
      · cases hstat : env.fs.statSync (env.path.join outputPath decoded) with
        | error e2 =>
          simp only [onFulfilled, hparse, hdecode, h1, if_false, hstat] at h
          simp at h
        | ok stat =>
          simp only [onFulfilled, hparse, hdecode, h1, if_false, hstat] at h
          by_cases hd : stat.isDirectory = true
          · simp only [hd, if_true] at h
            exact serveDirectory_throw env options request _ _ events e h
          · simp only [hd, if_false] at h
            exact serveFile_throw env request _ _ events e h

/-- C10, as the code has it: when the build is fulfilled and the callback throws
`e`, the handler of `.catch` takes it: the promise chain ends fulfilled with
`e.stack`, not rejected; the response is not ended and `next` is not called. -/
theorem C10_exception_ends_fulfilled (env : Env) (watcher : Watcher)
    (options : Option Options) (request : Request) (value : JSValue) (events : List Event)
    (e : JSError)
    (hbuild : watcher.currentBuild = some (.fulfilled value))
    (hthrow : onFulfilled env watcher.outputPath (defaultOptions options) request =
      ⟨events, .throw e⟩) :
    getMiddleware env watcher options request =
      { events := events, result := .chain (.fulfilled e.stack) } ∧
    (∀ reason, (getMiddleware env watcher options request).result ≠ .chain (.rejected reason)) ∧
    (∀ body, Event.end body ∉ events) ∧ Event.next ∉ events := by
  have h : getMiddleware env watcher options request =
      { events := events, result := .chain (.fulfilled e.stack) } := by
    unfold getMiddleware
    rw [hbuild]
    exact broccoliMiddleware_throw env _ _ request value e events hthrow
  refine ⟨h, ?_, onFulfilled_throw env _ _ request events e hthrow⟩
  intro reason
  rw [h]
  simp

/-- C10 on `/out`: the path of `GET /%` cannot be decoded. -/
theorem C10_exception_ends_fulfilled_witness :
    getMiddleware demoEnv demoWatcher none (get "/%") =
      { events := [], result := .chain (.fulfilled (.string "URIError: URI malformed")) } :=
  (C10_exception_ends_fulfilled demoEnv demoWatcher none (get "/%") .undefined [] uriError
    rfl rfl).1

/-- C10 fails as stated: `decodeURIComponent` throws a `URIError` on the path
of `GET /%`, and the promise chain ends fulfilled with the stack of that error,
not rejected with the error. -/
theorem C10_counterexample :
    onFulfilled demoEnv demoWatcher.outputPath (defaultOptions none) (get "/%") =
      ⟨[], .throw uriError⟩ ∧
    (getMiddleware demoEnv demoWatcher none (get "/%")).result =
      .chain (.fulfilled (.string "URIError: URI malformed")) ∧
    (getMiddleware demoEnv demoWatcher none (get "/%")).result ≠ .chain (.rejected uriError) :=
  ⟨by decide, by decide, by decide⟩

end Broccoli
